import Mathlib

/-!
Shallow embedding of the swpp202201-interpreter execution engine
(src/state.cpp together with the cost table of src/opcode.h).

Modelling conventions:
* C++ `double` cost values are embedded as exact rationals (`Rat`); the
  engine only ever adds costs, so the accounting structure is preserved.
* The collaborator calls that state.cpp treats as black boxes
  (StmtRet::get_val, StmtBrCond::get_bb / get_eval, StmtSwitch::get_bb,
  StmtCall::setup_args, Stmt::exec) are embedded as function-valued
  fields of the corresponding statement constructor, taking exactly the
  runtime data the C++ call receives (current accumulated cost, register
  file, memory) and returning exactly what the C++ call returns.
* The unbounded `while (true)` dispatch loop and the recursion of
  State::exec_function are embedded with explicit fuel; a run that the
  C++ code finishes corresponds to a large enough fuel value.
* `invoke_runtime_error` aborts the whole run, so the embedding returns a
  terminal `fatal` outcome carrying the message and the current value of
  the global `error_line_num`.
-/

/-- Opcode enumeration from src/opcode.h (LEN_OPCODE is only a count). -/
inductive Opcode where
  | ret
  | brUncond
  | brCond
  | switch
  | malloc
  | free
  | load
  | store
  | bop
  | sum
  | uop
  | select
  | call
  | assert
  | read
  | write
deriving DecidableEq, Fintype, Repr

/- Cost constants from the Cost class of src/opcode.h, as exact rationals. -/
namespace Cost

def RET : Rat := 1
def BRUNCOND : Rat := 1
def BRCOND_TRUE : Rat := 6
def BRCOND_FALSE : Rat := 1
def SWITCH : Rat := 6 / 5
def MALLOC : Rat := 16
def FREE : Rat := 16
def STACK : Rat := 6
def HEAP : Rat := 12
def ALOAD : Rat := 1
def WAIT_STACK : Rat := 10
def WAIT_HEAP : Rat := 16
def MULDIV : Rat := 1
def LOGICAL : Rat := 4
def ADDSUB : Rat := 5
def SUM : Rat := 26 / 5
def UOP : Rat := 1
def COMP : Rat := 1
def TERNARY : Rat := 6 / 5
def CALL : Rat := 2
def PER_ARG : Rat := 1
def ASSERT : Rat := 0

end Cost

/-- Register file: registers mapped to 64-bit values, plus the argument
count marker set by RegFile::set_nargs. Register values are embedded as
natural numbers since the engine never computes on them. -/
structure RegFile where
  regs : String → Nat
  nargs : Nat

/-- RegFile::write_reg. -/
def RegFile.write_reg (rf : RegFile) (r : String) (v : Nat) : RegFile :=
  { rf with regs := Function.update rf.regs r v }

/-- RegFile::set_nargs. -/
def RegFile.set_nargs (rf : RegFile) (n : Nat) : RegFile :=
  { rf with nargs := n }

/-- Memory model: a collaborator; the engine only threads it through the
per-instruction exec calls and queries the high-water mark. -/
structure Memory where
  maxAllocedSize : Nat

/-- Statements of the program graph. Each constructor carries the source
line (Stmt::get_line) and the data the dispatch loop of
State::exec_function extracts from it; collaborator evaluation calls are
function fields. Chains of non-terminator statements carry their
successor (Stmt::get_next); basic blocks end at a terminator. -/
inductive Stmt where
  | ret (line : Nat) (val : Rat → RegFile → Nat × Rat)
  | brUncond (line : Nat) (bb : String)
  | brCond (line : Nat) (eval : Rat → RegFile → String × Rat × Bool)
  | switch (line : Nat) (eval : Rat → RegFile → String × Rat)
  | call (line : Nat) (fname : String) (nargs : Nat) (lhs : String)
      (setup : Rat → RegFile → RegFile → RegFile × Rat) (next : Stmt)
  | other (line : Nat) (op : Opcode)
      (ex : Rat → RegFile → Memory → Rat × Rat × RegFile × Memory) (next : Stmt)

/-- Stmt::get_line. -/
def Stmt.get_line : Stmt → Nat
  | .ret line _ => line
  | .brUncond line _ => line
  | .brCond line _ => line
  | .switch line _ => line
  | .call line _ _ _ _ _ => line
  | .other line _ _ _ => line

/-- Function of the program graph: name, declared argument count, entry
block and labelled basic blocks (each given by its first statement). -/
structure Func where
  fname : String
  nargs : Nat
  entry : Option Stmt
  blocks : List (String × Stmt)

/-- Function::get_first_bb. -/
def Func.get_first_bb (f : Func) : Option Stmt := f.entry

/-- Function::get_bb (label lookup within the function). -/
def Func.get_bb (f : Func) (bb : String) : Option Stmt := f.blocks.lookup bb

/-- Program graph: functions keyed by name. -/
def Program : Type := List (String × Func)

/-- Program::get_function. -/
def Program.get_function (p : Program) (n : String) : Option Func := p.lookup n

/-- CostStack: one node of the call-tree of cost accumulators (function
name, accumulated cost, callees in call order). -/
structure CostStack where
  fname : String
  cost : Rat
  callees : List CostStack

/-- CostStack::get_cost. -/
def CostStack.get_cost (c : CostStack) : Rat := c.cost

/-- The mutable execution state of class State that is shared across the
whole call tree: register file, memory, instruction log (per-opcode cost
and count plus the run-wide wait-cost total) and the error_line_num
global of error.h. -/
structure ExtState where
  regfile : RegFile
  memory : Memory
  cost_per_inst : Opcode → Rat
  inst_count : Opcode → Nat
  total_wait_cost : Rat
  error_line_num : Nat

/-- State::update_cost_log. -/
def update_cost_log (σ : ExtState) (opcode : Opcode) (inst_cost wait_cost : Rat) :
    ExtState :=
  { σ with
    cost_per_inst := Function.update σ.cost_per_inst opcode
      (σ.cost_per_inst opcode + inst_cost)
    inst_count := Function.update σ.inst_count opcode (σ.inst_count opcode + 1)
    total_wait_cost := σ.total_wait_cost + wait_cost }

/-- Outcome of one function activation: normal return with value, cost
node and final shared state; fatal runtime error (message, error line,
the cost node of the aborted activation when one was created, state at
abort); or fuel exhaustion (an artifact of the fueled embedding). -/
inductive FnOut where
  | ok (retval : Nat) (node : CostStack) (σ : ExtState)
  | fatal (msg : String) (line : Nat) (node : Option CostStack) (σ : ExtState)
  | fuelOut (node : CostStack) (σ : ExtState)

/-- The dispatch loop of State::exec_function: `f` is the executing
function, `curr` the cursor, `cost` the running total of the current
activation and `callees` its callee list so far. The Call case inlines
the recursive State::exec_function invocation (fresh node linked to the
parent first, then the entry-block check, then the
loop on the callee body). -/
def exec_loop (prog : Program) : Nat → ExtState → Func → Stmt → Rat →
    List CostStack → FnOut
  | 0, σ, f, _, cost, callees => .fuelOut ⟨f.fname, cost, callees⟩ σ
  | fuel + 1, σ, f, curr, cost, callees =>
    match curr with
    | .ret line val =>
      .ok (val cost (σ.regfile)).1
        ⟨f.fname, cost + (Cost.RET + (val cost (σ.regfile)).2), callees⟩
        (update_cost_log { σ with error_line_num := line } .ret Cost.RET
          (val cost (σ.regfile)).2)
    | .brUncond line bb =>
      match f.get_bb bb with
      | none =>
        .fatal "branching to an undefined basic block" line
          (some ⟨f.fname, cost, callees⟩) { σ with error_line_num := line }
      | some nxt =>
        exec_loop prog fuel
          (update_cost_log { σ with error_line_num := line } .brUncond
            Cost.BRUNCOND 0)
          f nxt (cost + Cost.BRUNCOND) callees
    | .brCond line eval =>
      match f.get_bb (eval cost (σ.regfile)).1 with
      | none =>
        .fatal "branching to an undefined basic block" line
          (some ⟨f.fname, cost, callees⟩) { σ with error_line_num := line }
      | some nxt =>
        exec_loop prog fuel
          (update_cost_log { σ with error_line_num := line } .brCond
            (if (eval cost (σ.regfile)).2.2 then Cost.BRCOND_TRUE
             else Cost.BRCOND_FALSE)
            (eval cost (σ.regfile)).2.1)
          f nxt
          (cost + ((if (eval cost (σ.regfile)).2.2 then Cost.BRCOND_TRUE
                    else Cost.BRCOND_FALSE) + (eval cost (σ.regfile)).2.1))
          callees
    | .switch line eval =>
      match f.get_bb (eval cost (σ.regfile)).1 with
      | none =>
        .fatal "branching to an undefined basic block" line
          (some ⟨f.fname, cost, callees⟩) { σ with error_line_num := line }
      | some nxt =>
        exec_loop prog fuel
          (update_cost_log { σ with error_line_num := line } .switch Cost.SWITCH
            (eval cost (σ.regfile)).2)
          f nxt (cost + (Cost.SWITCH + (eval cost (σ.regfile)).2)) callees
    | .call line fname nargs lhs setup next =>
      match prog.get_function fname with
      | none =>
        .fatal "calling an undefined function" line
          (some ⟨f.fname, cost, callees⟩) { σ with error_line_num := line }
      | some callee =>
        if callee.nargs ≠ nargs then
          .fatal "calling with incorrect number of arguments" line
            (some ⟨f.fname, cost, callees⟩) { σ with error_line_num := line }
        else
          match callee.get_first_bb with
          | none =>
            .fatal "missing first basic block" line
              (some ⟨f.fname,
                cost + ((Cost.CALL + (callee.nargs : Rat) * Cost.PER_ARG) +
                  (setup cost (σ.regfile) ((σ.regfile).set_nargs callee.nargs)).2),
                callees ++ [⟨callee.fname, 0, []⟩]⟩)
              (update_cost_log
                { σ with
                  error_line_num := line
                  regfile :=
                    (setup cost (σ.regfile)
                      ((σ.regfile).set_nargs callee.nargs)).1 }
                .call (Cost.CALL + (callee.nargs : Rat) * Cost.PER_ARG)
                (setup cost (σ.regfile) ((σ.regfile).set_nargs callee.nargs)).2)
          | some first =>
            match exec_loop prog fuel
                (update_cost_log
                  { σ with
                    error_line_num := line
                    regfile :=
                      (setup cost (σ.regfile)
                        ((σ.regfile).set_nargs callee.nargs)).1 }
                  .call (Cost.CALL + (callee.nargs : Rat) * Cost.PER_ARG)
                  (setup cost (σ.regfile) ((σ.regfile).set_nargs callee.nargs)).2)
                callee first 0 [] with
            | .ok ret child σ3 =>
              exec_loop prog fuel
                { σ3 with regfile := (σ.regfile).write_reg lhs ret }
                f next
                (cost + ((Cost.CALL + (callee.nargs : Rat) * Cost.PER_ARG) +
                  (setup cost (σ.regfile) ((σ.regfile).set_nargs callee.nargs)).2) +
                  child.cost)
                (callees ++ [child])
            | .fatal msg eline child σ3 =>
              .fatal msg eline
                (some ⟨f.fname,
                  cost + ((Cost.CALL + (callee.nargs : Rat) * Cost.PER_ARG) +
                    (setup cost (σ.regfile) ((σ.regfile).set_nargs callee.nargs)).2),
                  callees ++ child.toList⟩) σ3
            | .fuelOut child σ3 =>
              .fuelOut
                ⟨f.fname,
                  cost + ((Cost.CALL + (callee.nargs : Rat) * Cost.PER_ARG) +
                    (setup cost (σ.regfile) ((σ.regfile).set_nargs callee.nargs)).2),
                  callees ++ [child]⟩ σ3
    | .other line op ex next =>
      exec_loop prog fuel
        (update_cost_log
          { σ with
            error_line_num := line
            regfile := (ex cost (σ.regfile) (σ.memory)).2.2.1
            memory := (ex cost (σ.regfile) (σ.memory)).2.2.2 }
          op (ex cost (σ.regfile) (σ.memory)).1
          (ex cost (σ.regfile) (σ.memory)).2.1)
        f next
        (cost + ((ex cost (σ.regfile) (σ.memory)).1 +
          (ex cost (σ.regfile) (σ.memory)).2.1))
        callees

/-- State::exec_function for a whole activation: create the cost node
(the outcome carries it), check the entry block, then run the loop. -/
def exec_function (prog : Program) (fuel : Nat) (σ : ExtState) (f : Func) : FnOut :=
  match f.get_first_bb with
  | none =>
    .fatal "missing first basic block" σ.error_line_num
      (some ⟨f.fname, 0, []⟩) σ
  | some first => exec_loop prog fuel σ f first 0 []

/-- State::exec_program: look up main, execute it with no parent frame. -/
def exec_program (prog : Program) (fuel : Nat) (σ : ExtState) : FnOut :=
  match prog.get_function "main" with
  | none => .fatal "missing main function" σ.error_line_num none σ
  | some m => exec_function prog fuel σ m

/-- Initial execution state built by the State constructor: zeroed
instruction log and wait cost. -/
def init_state : ExtState :=
  { regfile := ⟨fun _ => 0, 0⟩
    memory := ⟨0⟩
    cost_per_inst := fun _ => 0
    inst_count := fun _ => 0
    total_wait_cost := 0
    error_line_num := 0 }

/-- Rows of the instruction log report, in the order State::inst_log_to_string
emits them; each row is the opcode indexed and the printed name. -/
def inst_log_table : List (Opcode × String) :=
  [(.ret, "Ret"), (.brUncond, "BrUncond"), (.brCond, "BrCond"),
   (.brCond, "BrCond"), (.switch, "Switch"), (.malloc, "Malloc"),
   (.free, "Free"), (.load, "Load"), (.store, "Store"), (.bop, "BinaryOp"),
   (.sum, "Sum"), (.uop, "UnaryOp"), (.select, "Select"), (.call, "Call"),
   (.read, "Read"), (.write, "Write")]

/-- One rendered row of the instruction log (State::inst_log_line), with
the rational cost shown exactly rather than at fixed precision. -/
def inst_log_line (σ : ExtState) (opcode : Opcode) (inst : String) : String :=
  inst ++ "\t" ++ toString (σ.inst_count opcode) ++ "\t" ++
    toString (σ.cost_per_inst opcode)

/-- The rendered rows of State::inst_log_to_string (header omitted). -/
def inst_log_rows (σ : ExtState) : List String :=
  inst_log_table.map fun r => inst_log_line σ r.1 r.2

/-- Total cost recorded in the instruction log: the per-opcode cost cells
summed over the whole opcode enumeration, plus the run-wide wait total. -/
def log_cost_total (σ : ExtState) : Rat :=
  σ.cost_per_inst .ret + σ.cost_per_inst .brUncond + σ.cost_per_inst .brCond +
  σ.cost_per_inst .switch + σ.cost_per_inst .malloc + σ.cost_per_inst .free +
  σ.cost_per_inst .load + σ.cost_per_inst .store + σ.cost_per_inst .bop +
  σ.cost_per_inst .sum + σ.cost_per_inst .uop + σ.cost_per_inst .select +
  σ.cost_per_inst .call + σ.cost_per_inst .assert + σ.cost_per_inst .read +
  σ.cost_per_inst .write + σ.total_wait_cost

/-- Shorthand for the base cost the Call case charges. -/
def call_inst_cost (callee : Func) : Rat :=
  Cost.CALL + (callee.nargs : Rat) * Cost.PER_ARG

/-- Shorthand for the register file handed to the callee and the
argument-setup stall cost (StmtCall::setup_args on the set_nargs view). -/
def call_setup (σ : ExtState) (callee : Func)
    (setup : Rat → RegFile → RegFile → RegFile × Rat) (cost : Rat) :
    RegFile × Rat :=
  setup cost σ.regfile (σ.regfile.set_nargs callee.nargs)

/-- Shorthand for the shared state at the moment the Call case recurses:
register file replaced by the callee view, call cost logged. -/
def call_entry_state (σ : ExtState) (line : Nat) (callee : Func)
    (setup : Rat → RegFile → RegFile → RegFile × Rat) (cost : Rat) : ExtState :=
  update_cost_log
    { σ with error_line_num := line, regfile := (call_setup σ callee setup cost).1 }
    .call (call_inst_cost callee) (call_setup σ callee setup cost).2

/- Concrete example programs used to evaluate the embedding on closed
inputs. -/

/-- Statement returning the constant 5 with no stall. -/
def w_ret5_stmt : Stmt := .ret 3 (fun _ _ => (5, 0))

/-- Function main consisting of a single return of 5. -/
def w_main0 : Func := ⟨"main", 0, some w_ret5_stmt, []⟩

/-- Program with only main. -/
def w_prog0 : Program := [("main", w_main0)]

/-- Body of a callee returning the constant 7 with no stall. -/
def w_fret : Stmt := .ret 10 (fun _ _ => (7, 0))

/-- One-argument callee f returning 7. -/
def w_f : Func := ⟨"f", 1, some w_fret, []⟩

/-- Argument setup collaborator that passes the prepared view through
with no stall. -/
def w_setup : Rat → RegFile → RegFile → RegFile × Rat := fun _ _ rf => (rf, 0)

/-- Call statement invoking f with one argument into register r1, then
returning the value of r1. -/
def w_call_stmt : Stmt :=
  .call 4 "f" 1 "r1" w_setup (.ret 5 (fun _ rf => (rf.regs "r1", 0)))

/-- Caller main for the call scenario. -/
def w_mainc : Func := ⟨"main", 0, some w_call_stmt, []⟩

/-- Program with the caller main and callee f. -/
def w_progc : Program := [("main", w_mainc), ("f", w_f)]

/-- Function with no labelled blocks, entering on a branch to an
undefined label. -/
def w_fnb : Func := ⟨"g", 0, some (.brUncond 7 "nope"), []⟩

/-- Conditional branch whose collaborator evaluation yields target x,
no stall, condition true. -/
def w_brc : Stmt := .brCond 8 (fun _ _ => ("x", 0, true))

/-- Switch whose collaborator evaluation yields target x with no stall. -/
def w_sw : Stmt := .switch 9 (fun _ _ => ("x", 0))

/-- Function with a single self-looping unconditional branch block L. -/
def w_loopf : Func := ⟨"h", 0, some (.brUncond 2 "L"), [("L", .brUncond 2 "L")]⟩

/-- Function whose block x is a self-looping conditional branch. -/
def w_brf : Func := ⟨"k", 0, some w_brc, [("x", w_brc)]⟩

/-- Call to a function name absent from the program graph. -/
def w_callundef : Stmt := .call 6 "nosuch" 0 "r0" w_setup w_ret5_stmt

/-- Call to f with three arguments although f declares one. -/
def w_callarity : Stmt := .call 6 "f" 3 "r0" w_setup w_ret5_stmt

/-- Function with no entry block at all. -/
def w_noentry : Func := ⟨"e", 0, none, []⟩

/-- Program containing the entry-less function e and the callee f. -/
def w_proge : Program := [("e", w_noentry), ("f", w_f)]

/-- Call to the entry-less function e. -/
def w_callnoentry : Stmt := .call 6 "e" 0 "r0" w_setup w_ret5_stmt

/-- State of the shared log and register file at the moment the witness
call into f starts executing the callee body. -/
def w_c7_sigma2 : ExtState := call_entry_state init_state 4 w_f w_setup 0

/-- Cost node the witness callee f finishes with. -/
def w_c7_child : CostStack := ⟨"f", 0 + (Cost.RET + 0), []⟩

/-- Shared state after the witness callee f has returned. -/
def w_c7_sigma3 : ExtState :=
  update_cost_log { w_c7_sigma2 with error_line_num := 10 } .ret Cost.RET 0

/-- Running total of the caller main just before its final return in the
witness call scenario. -/
def w_c1_cost : Rat :=
  0 + ((Cost.CALL + ((1 : Nat) : Rat) * Cost.PER_ARG) + 0) + (0 + (Cost.RET + 0))

/-- Shared state at which the witness caller main resumes after the call. -/
def w_c1_sigma4 : ExtState :=
  { w_c7_sigma3 with regfile := init_state.regfile.write_reg "r1" 7 }

/-- Root cost node of the witness call scenario. -/
def w_c1_node : CostStack := ⟨"main", w_c1_cost + (Cost.RET + 0), [w_c7_child]⟩

/-- Final shared state of the witness call scenario. -/
def w_c1_sigma5 : ExtState :=
  update_cost_log { w_c1_sigma4 with error_line_num := 5 } .ret Cost.RET 0

/-- Nonnegativity of the stall and base costs a statement and its
successors can report: the actual collaborator instruction
implementations only ever return nonnegative cost components. -/
def Stmt.nonneg_costs : Stmt → Prop
  | .ret _ val => ∀ c rf, 0 ≤ (val c rf).2
  | .brUncond _ _ => True
  | .brCond _ eval => ∀ c rf, 0 ≤ (eval c rf).2.1
  | .switch _ eval => ∀ c rf, 0 ≤ (eval c rf).2
  | .call _ _ _ _ setup next =>
    (∀ c rf1 rf2, 0 ≤ (setup c rf1 rf2).2) ∧ next.nonneg_costs
  | .other _ _ ex next =>
    (∀ c rf m, 0 ≤ (ex c rf m).1 ∧ 0 ≤ (ex c rf m).2.1) ∧ next.nonneg_costs

/-- Nonnegativity of all statement costs reachable in a function. -/
def Func.nonneg_costs (f : Func) : Prop :=
  (∀ s, f.get_first_bb = some s → s.nonneg_costs) ∧
  (∀ l s, f.get_bb l = some s → s.nonneg_costs)

/-- Nonnegativity of all statement costs of a whole program. -/
def Program.nonneg_costs (p : Program) : Prop :=
  ∀ n f, p.get_function n = some f → f.nonneg_costs

/-- Shared execution state carried by an outcome, whatever its kind. -/
def FnOut.state : FnOut → ExtState
  | .ok _ _ σ => σ
  | .fatal _ _ _ σ => σ
  | .fuelOut _ σ => σ

/-- Pointwise ordering of the instruction log between two shared states:
every per-opcode count and cost cell, and the wait total, has not
decreased. -/
def log_le (σ σ2 : ExtState) : Prop :=
  (∀ op, σ.inst_count op ≤ σ2.inst_count op) ∧
  (∀ op, σ.cost_per_inst op ≤ σ2.cost_per_inst op) ∧
  σ.total_wait_cost ≤ σ2.total_wait_cost

theorem exec_loop_zero (prog : Program) (σ : ExtState) (f : Func) (curr : Stmt)
    (cost : Rat) (callees : List CostStack) :
    exec_loop prog 0 σ f curr cost callees = .fuelOut ⟨f.fname, cost, callees⟩ σ :=
  rfl

theorem exec_loop_ret (prog : Program) (fuel : Nat) (σ : ExtState) (f : Func)
    (line : Nat) (val : Rat → RegFile → Nat × Rat) (cost : Rat)
    (callees : List CostStack) :
    exec_loop prog (fuel + 1) σ f (.ret line val) cost callees =
      .ok (val cost σ.regfile).1
        ⟨f.fname, cost + (Cost.RET + (val cost σ.regfile).2), callees⟩
        (update_cost_log { σ with error_line_num := line } .ret Cost.RET
          (val cost σ.regfile).2) :=
  rfl

theorem exec_loop_brUncond_none (prog : Program) (fuel : Nat) (σ : ExtState)
    (f : Func) (line : Nat) (bb : String) (cost : Rat) (callees : List CostStack)
    (h : f.get_bb bb = none) :
    exec_loop prog (fuel + 1) σ f (.brUncond line bb) cost callees =
      .fatal "branching to an undefined basic block" line
        (some ⟨f.fname, cost, callees⟩) { σ with error_line_num := line } := by
  simp only [exec_loop, h]

theorem exec_loop_brUncond_some (prog : Program) (fuel : Nat) (σ : ExtState)
    (f : Func) (line : Nat) (bb : String) (cost : Rat) (callees : List CostStack)
    (nxt : Stmt) (h : f.get_bb bb = some nxt) :
    exec_loop prog (fuel + 1) σ f (.brUncond line bb) cost callees =
      exec_loop prog fuel
        (update_cost_log { σ with error_line_num := line } .brUncond Cost.BRUNCOND 0)
        f nxt (cost + Cost.BRUNCOND) callees := by
  simp only [exec_loop, h]

theorem exec_loop_brCond_none (prog : Program) (fuel : Nat) (σ : ExtState)
    (f : Func) (line : Nat) (eval : Rat → RegFile → String × Rat × Bool)
    (cost : Rat) (callees : List CostStack)
    (h : f.get_bb (eval cost σ.regfile).1 = none) :
    exec_loop prog (fuel + 1) σ f (.brCond line eval) cost callees =
      .fatal "branching to an undefined basic block" line
        (some ⟨f.fname, cost, callees⟩) { σ with error_line_num := line } := by
  simp only [exec_loop, h]

theorem exec_loop_brCond_some (prog : Program) (fuel : Nat) (σ : ExtState)
    (f : Func) (line : Nat) (eval : Rat → RegFile → String × Rat × Bool)
    (cost : Rat) (callees : List CostStack) (nxt : Stmt)
    (h : f.get_bb (eval cost σ.regfile).1 = some nxt) :
    exec_loop prog (fuel + 1) σ f (.brCond line eval) cost callees =
      exec_loop prog fuel
        (update_cost_log { σ with error_line_num := line } .brCond
          (if (eval cost σ.regfile).2.2 then Cost.BRCOND_TRUE else Cost.BRCOND_FALSE)
          (eval cost σ.regfile).2.1)
        f nxt
        (cost + ((if (eval cost σ.regfile).2.2 then Cost.BRCOND_TRUE
                  else Cost.BRCOND_FALSE) + (eval cost σ.regfile).2.1))
        callees := by
  simp only [exec_loop, h]

theorem exec_loop_switch_none (prog : Program) (fuel : Nat) (σ : ExtState)
    (f : Func) (line : Nat) (eval : Rat → RegFile → String × Rat)
    (cost : Rat) (callees : List CostStack)
    (h : f.get_bb (eval cost σ.regfile).1 = none) :
    exec_loop prog (fuel + 1) σ f (.switch line eval) cost callees =
      .fatal "branching to an undefined basic block" line
        (some ⟨f.fname, cost, callees⟩) { σ with error_line_num := line } := by
  simp only [exec_loop, h]

theorem exec_loop_switch_some (prog : Program) (fuel : Nat) (σ : ExtState)
    (f : Func) (line : Nat) (eval : Rat → RegFile → String × Rat)
    (cost : Rat) (callees : List CostStack) (nxt : Stmt)
    (h : f.get_bb (eval cost σ.regfile).1 = some nxt) :
    exec_loop prog (fuel + 1) σ f (.switch line eval) cost callees =
      exec_loop prog fuel
        (update_cost_log { σ with error_line_num := line } .switch Cost.SWITCH
          (eval cost σ.regfile).2)
        f nxt (cost + (Cost.SWITCH + (eval cost σ.regfile).2)) callees := by
  simp only [exec_loop, h]

theorem exec_loop_other (prog : Program) (fuel : Nat) (σ : ExtState) (f : Func)
    (line : Nat) (op : Opcode)
    (ex : Rat → RegFile → Memory → Rat × Rat × RegFile × Memory) (next : Stmt)
    (cost : Rat) (callees : List CostStack) :
    exec_loop prog (fuel + 1) σ f (.other line op ex next) cost callees =
      exec_loop prog fuel
        (update_cost_log
          { σ with
            error_line_num := line
            regfile := (ex cost σ.regfile σ.memory).2.2.1
            memory := (ex cost σ.regfile σ.memory).2.2.2 }
          op (ex cost σ.regfile σ.memory).1 (ex cost σ.regfile σ.memory).2.1)
        f next
        (cost + ((ex cost σ.regfile σ.memory).1 + (ex cost σ.regfile σ.memory).2.1))
        callees :=
  rfl

theorem exec_loop_call_undef (prog : Program) (fuel : Nat) (σ : ExtState)
    (f : Func) (line : Nat) (fname : String) (nargs : Nat) (lhs : String)
    (setup : Rat → RegFile → RegFile → RegFile × Rat) (next : Stmt)
    (cost : Rat) (callees : List CostStack)
    (h : prog.get_function fname = none) :
    exec_loop prog (fuel + 1) σ f (.call line fname nargs lhs setup next) cost callees =
      .fatal "calling an undefined function" line
        (some ⟨f.fname, cost, callees⟩) { σ with error_line_num := line } := by
  simp only [exec_loop, h]

theorem exec_loop_call_arity (prog : Program) (fuel : Nat) (σ : ExtState)
    (f : Func) (line : Nat) (fname : String) (nargs : Nat) (lhs : String)
    (setup : Rat → RegFile → RegFile → RegFile × Rat) (next : Stmt)
    (cost : Rat) (callees : List CostStack) (callee : Func)
    (h : prog.get_function fname = some callee) (hn : callee.nargs ≠ nargs) :
    exec_loop prog (fuel + 1) σ f (.call line fname nargs lhs setup next) cost callees =
      .fatal "calling with incorrect number of arguments" line
        (some ⟨f.fname, cost, callees⟩) { σ with error_line_num := line } := by
  simp only [exec_loop, h, if_pos hn]

theorem exec_loop_call_noentry (prog : Program) (fuel : Nat) (σ : ExtState)
    (f : Func) (line : Nat) (fname : String) (nargs : Nat) (lhs : String)
    (setup : Rat → RegFile → RegFile → RegFile × Rat) (next : Stmt)
    (cost : Rat) (callees : List CostStack) (callee : Func)
    (h : prog.get_function fname = some callee) (hn : callee.nargs = nargs)
    (he : callee.get_first_bb = none) :
    exec_loop prog (fuel + 1) σ f (.call line fname nargs lhs setup next) cost callees =
      .fatal "missing first basic block" line
        (some ⟨f.fname,
          cost + (call_inst_cost callee + (call_setup σ callee setup cost).2),
          callees ++ [⟨callee.fname, 0, []⟩]⟩)
        (call_entry_state σ line callee setup cost) := by
  subst hn
  simp [exec_loop, h, he, call_inst_cost, call_setup, call_entry_state]

theorem exec_loop_call_ok (prog : Program) (fuel : Nat) (σ : ExtState)
    (f : Func) (line : Nat) (fname : String) (nargs : Nat) (lhs : String)
    (setup : Rat → RegFile → RegFile → RegFile × Rat) (next : Stmt)
    (cost : Rat) (callees : List CostStack) (callee : Func) (first : Stmt)
    (ret : Nat) (child : CostStack) (σ3 : ExtState)
    (h : prog.get_function fname = some callee) (hn : callee.nargs = nargs)
    (he : callee.get_first_bb = some first)
    (hc : exec_loop prog fuel (call_entry_state σ line callee setup cost)
            callee first 0 [] = .ok ret child σ3) :
    exec_loop prog (fuel + 1) σ f (.call line fname nargs lhs setup next) cost callees =
      exec_loop prog fuel { σ3 with regfile := σ.regfile.write_reg lhs ret }
        f next
        (cost + (call_inst_cost callee + (call_setup σ callee setup cost).2) +
          child.cost)
        (callees ++ [child]) := by
  subst hn
  have hc2 := hc
  simp only [call_entry_state, call_inst_cost, call_setup] at hc2
  simp [exec_loop, h, he, hc2, call_inst_cost, call_setup]

theorem exec_loop_call_fatal (prog : Program) (fuel : Nat) (σ : ExtState)
    (f : Func) (line : Nat) (fname : String) (nargs : Nat) (lhs : String)
    (setup : Rat → RegFile → RegFile → RegFile × Rat) (next : Stmt)
    (cost : Rat) (callees : List CostStack) (callee : Func) (first : Stmt)
    (msg : String) (eline : Nat) (child : Option CostStack) (σ3 : ExtState)
    (h : prog.get_function fname = some callee) (hn : callee.nargs = nargs)
    (he : callee.get_first_bb = some first)
    (hc : exec_loop prog fuel (call_entry_state σ line callee setup cost)
            callee first 0 [] = .fatal msg eline child σ3) :
    exec_loop prog (fuel + 1) σ f (.call line fname nargs lhs setup next) cost callees =
      .fatal msg eline
        (some ⟨f.fname,
          cost + (call_inst_cost callee + (call_setup σ callee setup cost).2),
          callees ++ child.toList⟩) σ3 := by
  subst hn
  have hc2 := hc
  simp only [call_entry_state, call_inst_cost, call_setup] at hc2
  simp [exec_loop, h, he, hc2, call_inst_cost, call_setup]

theorem exec_loop_call_fuelOut (prog : Program) (fuel : Nat) (σ : ExtState)
    (f : Func) (line : Nat) (fname : String) (nargs : Nat) (lhs : String)
    (setup : Rat → RegFile → RegFile → RegFile × Rat) (next : Stmt)
    (cost : Rat) (callees : List CostStack) (callee : Func) (first : Stmt)
    (child : CostStack) (σ3 : ExtState)
    (h : prog.get_function fname = some callee) (hn : callee.nargs = nargs)
    (he : callee.get_first_bb = some first)
    (hc : exec_loop prog fuel (call_entry_state σ line callee setup cost)
            callee first 0 [] = .fuelOut child σ3) :
    exec_loop prog (fuel + 1) σ f (.call line fname nargs lhs setup next) cost callees =
      .fuelOut
        ⟨f.fname,
          cost + (call_inst_cost callee + (call_setup σ callee setup cost).2),
          callees ++ [child]⟩ σ3 := by
  subst hn
  have hc2 := hc
  simp only [call_entry_state, call_inst_cost, call_setup] at hc2
  simp [exec_loop, h, he, hc2, call_inst_cost, call_setup]

/-- Claim C5: the top-level run looks up the function named main in the
program graph; if it is absent the run fails fatally with message
missing main function (and no cost node is ever created); otherwise main
is executed with no parent frame, so the outcome of the whole run, both
the return value and the root cost node, is exactly the outcome of
executing main. -/
theorem C5_run_program (p1 : Program) (fuel1 : Nat) (s1 : ExtState)
    (h1 : p1.get_function "main" = none)
    (p2 : Program) (fuel2 : Nat) (s2 : ExtState) (m : Func)
    (h2 : p2.get_function "main" = some m) :
    exec_program p1 fuel1 s1 =
      .fatal "missing main function" s1.error_line_num none s1 ∧
    exec_program p2 fuel2 s2 = exec_function p2 fuel2 s2 m := by
  constructor
  · simp only [exec_program, h1]
  · simp only [exec_program, h2]

/-- Closed instance of C5_run_program on the empty program and on the
one-function program w_prog0. -/
theorem C5_run_program_witness :
    exec_program ([] : Program) 1 init_state =
      .fatal "missing main function" init_state.error_line_num none init_state ∧
    exec_program w_prog0 1 init_state = exec_function w_prog0 1 init_state w_main0 :=
  C5_run_program [] 1 init_state rfl w_prog0 1 init_state w_main0 rfl

/-- Claim C4: a branch (unconditional or conditional) or switch whose
resolved target label is not defined in the current function aborts the
run fatally with message branching to an undefined basic block, carrying
the source line of the branching instruction; the shared state is left
untouched except for error_line_num, so no cost reaches the accumulator
(the node keeps its running cost) or the instruction log. When the
target resolves, an unconditional branch adds exactly the BRUNCOND base
cost (zero stall) to the accumulator and to the log and execution
continues at the first statement of the target block. -/
theorem C4_branch_resolution
    (p1 : Program) (fuel1 : Nat) (s1 : ExtState) (f1 : Func) (l1 : Nat)
    (b1 : String) (c1 : Rat) (cs1 : List CostStack) (h1 : f1.get_bb b1 = none)
    (p2 : Program) (fuel2 : Nat) (s2 : ExtState) (f2 : Func) (l2 : Nat)
    (ev2 : Rat → RegFile → String × Rat × Bool) (c2 : Rat) (cs2 : List CostStack)
    (h2 : f2.get_bb (ev2 c2 s2.regfile).1 = none)
    (p3 : Program) (fuel3 : Nat) (s3 : ExtState) (f3 : Func) (l3 : Nat)
    (ev3 : Rat → RegFile → String × Rat) (c3 : Rat) (cs3 : List CostStack)
    (h3 : f3.get_bb (ev3 c3 s3.regfile).1 = none)
    (p4 : Program) (fuel4 : Nat) (s4 : ExtState) (f4 : Func) (l4 : Nat)
    (b4 : String) (c4 : Rat) (cs4 : List CostStack) (nxt4 : Stmt)
    (h4 : f4.get_bb b4 = some nxt4) :
    exec_loop p1 (fuel1 + 1) s1 f1 (.brUncond l1 b1) c1 cs1 =
      .fatal "branching to an undefined basic block" l1
        (some ⟨f1.fname, c1, cs1⟩) { s1 with error_line_num := l1 } ∧
    exec_loop p2 (fuel2 + 1) s2 f2 (.brCond l2 ev2) c2 cs2 =
      .fatal "branching to an undefined basic block" l2
        (some ⟨f2.fname, c2, cs2⟩) { s2 with error_line_num := l2 } ∧
    exec_loop p3 (fuel3 + 1) s3 f3 (.switch l3 ev3) c3 cs3 =
      .fatal "branching to an undefined basic block" l3
        (some ⟨f3.fname, c3, cs3⟩) { s3 with error_line_num := l3 } ∧
    exec_loop p4 (fuel4 + 1) s4 f4 (.brUncond l4 b4) c4 cs4 =
      exec_loop p4 fuel4
        (update_cost_log { s4 with error_line_num := l4 } .brUncond Cost.BRUNCOND 0)
        f4 nxt4 (c4 + Cost.BRUNCOND) cs4 :=
  ⟨exec_loop_brUncond_none p1 fuel1 s1 f1 l1 b1 c1 cs1 h1,
   exec_loop_brCond_none p2 fuel2 s2 f2 l2 ev2 c2 cs2 h2,
   exec_loop_switch_none p3 fuel3 s3 f3 l3 ev3 c3 cs3 h3,
   exec_loop_brUncond_some p4 fuel4 s4 f4 l4 b4 c4 cs4 nxt4 h4⟩

/-- Closed instance of C4_branch_resolution: the three fatal shapes on
the blockless function w_fnb and the successful unconditional branch of
w_loopf. -/
theorem C4_branch_resolution_witness :
    exec_loop w_prog0 1 init_state w_fnb (.brUncond 7 "nope") 0 [] =
      .fatal "branching to an undefined basic block" 7
        (some ⟨w_fnb.fname, 0, []⟩) { init_state with error_line_num := 7 } ∧
    exec_loop w_prog0 1 init_state w_fnb w_brc 0 [] =
      .fatal "branching to an undefined basic block" 8
        (some ⟨w_fnb.fname, 0, []⟩) { init_state with error_line_num := 8 } ∧
    exec_loop w_prog0 1 init_state w_fnb w_sw 0 [] =
      .fatal "branching to an undefined basic block" 9
        (some ⟨w_fnb.fname, 0, []⟩) { init_state with error_line_num := 9 } ∧
    exec_loop w_prog0 1 init_state w_loopf (.brUncond 2 "L") 0 [] =
      exec_loop w_prog0 0
        (update_cost_log { init_state with error_line_num := 2 } .brUncond
          Cost.BRUNCOND 0)
        w_loopf (.brUncond 2 "L") (0 + Cost.BRUNCOND) [] :=
  C4_branch_resolution w_prog0 0 init_state w_fnb 7 "nope" 0 [] rfl
    w_prog0 0 init_state w_fnb 8 (fun _ _ => ("x", 0, true)) 0 [] rfl
    w_prog0 0 init_state w_fnb 9 (fun _ _ => ("x", 0)) 0 [] rfl
    w_prog0 0 init_state w_loopf 2 "L" 0 [] (.brUncond 2 "L") rfl

/-- Claim C3: a call whose named callee is absent from the program graph
fails fatally with message calling an undefined function; a call whose
callee exists but declares a different argument count fails fatally with
message calling with incorrect number of arguments; in both cases the
only state change is error_line_num, so the register file, the per
opcode cost cells, the per opcode counts and the wait-cost total are all
untouched and the cost node keeps its running cost and callee list. -/
theorem C3_call_errors
    (p1 : Program) (fuel1 : Nat) (s1 : ExtState) (f1 : Func) (l1 : Nat)
    (g1 : String) (n1 : Nat) (lhs1 : String)
    (setup1 : Rat → RegFile → RegFile → RegFile × Rat) (next1 : Stmt)
    (c1 : Rat) (cs1 : List CostStack) (h1 : p1.get_function g1 = none)
    (p2 : Program) (fuel2 : Nat) (s2 : ExtState) (f2 : Func) (l2 : Nat)
    (g2 : String) (n2 : Nat) (lhs2 : String)
    (setup2 : Rat → RegFile → RegFile → RegFile × Rat) (next2 : Stmt)
    (c2 : Rat) (cs2 : List CostStack) (callee2 : Func)
    (h2 : p2.get_function g2 = some callee2) (hn2 : callee2.nargs ≠ n2) :
    exec_loop p1 (fuel1 + 1) s1 f1 (.call l1 g1 n1 lhs1 setup1 next1) c1 cs1 =
      .fatal "calling an undefined function" l1
        (some ⟨f1.fname, c1, cs1⟩) { s1 with error_line_num := l1 } ∧
    exec_loop p2 (fuel2 + 1) s2 f2 (.call l2 g2 n2 lhs2 setup2 next2) c2 cs2 =
      .fatal "calling with incorrect number of arguments" l2
        (some ⟨f2.fname, c2, cs2⟩) { s2 with error_line_num := l2 } ∧
    ({ s1 with error_line_num := l1 }).regfile = s1.regfile ∧
    ({ s1 with error_line_num := l1 }).cost_per_inst = s1.cost_per_inst ∧
    ({ s1 with error_line_num := l1 }).inst_count = s1.inst_count ∧
    ({ s1 with error_line_num := l1 }).total_wait_cost = s1.total_wait_cost :=
  ⟨exec_loop_call_undef p1 fuel1 s1 f1 l1 g1 n1 lhs1 setup1 next1 c1 cs1 h1,
   exec_loop_call_arity p2 fuel2 s2 f2 l2 g2 n2 lhs2 setup2 next2 c2 cs2 callee2
     h2 hn2, rfl, rfl, rfl, rfl⟩

/-- Closed instance of C3_call_errors: calling the absent function
nosuch and calling the one-argument function f with three arguments. -/
theorem C3_call_errors_witness :
    exec_loop w_progc 1 init_state w_mainc w_callundef 0 [] =
      .fatal "calling an undefined function" 6
        (some ⟨w_mainc.fname, 0, []⟩) { init_state with error_line_num := 6 } ∧
    exec_loop w_progc 1 init_state w_mainc w_callarity 0 [] =
      .fatal "calling with incorrect number of arguments" 6
        (some ⟨w_mainc.fname, 0, []⟩) { init_state with error_line_num := 6 } ∧
    ({ init_state with error_line_num := 6 }).regfile = init_state.regfile ∧
    ({ init_state with error_line_num := 6 }).cost_per_inst = init_state.cost_per_inst ∧
    ({ init_state with error_line_num := 6 }).inst_count = init_state.inst_count ∧
    ({ init_state with error_line_num := 6 }).total_wait_cost = init_state.total_wait_cost :=
  C3_call_errors w_progc 0 init_state w_mainc 6 "nosuch" 0 "r0" w_setup
    w_ret5_stmt 0 [] rfl
    w_progc 0 init_state w_mainc 6 "f" 3 "r0" w_setup w_ret5_stmt 0 [] w_f rfl
    (by decide)

/-- Claim C6: an executed conditional branch whose target resolves
charges base cost BRCOND_TRUE, equal to 6, when the evaluated condition
is true and BRCOND_FALSE, equal to 1, when it is false; the base cost
plus the stall component of the condition evaluation is added to the
current accumulator, the same pair is recorded in the instruction log,
and execution continues at the chosen target block. -/
theorem C6_brcond_outcome_cost (p : Program) (fuel : Nat) (s : ExtState)
    (f : Func) (l : Nat) (ev : Rat → RegFile → String × Rat × Bool) (c : Rat)
    (cs : List CostStack) (nxt : Stmt)
    (h : f.get_bb (ev c s.regfile).1 = some nxt) :
    Cost.BRCOND_TRUE = 6 ∧ Cost.BRCOND_FALSE = 1 ∧
    exec_loop p (fuel + 1) s f (.brCond l ev) c cs =
      exec_loop p fuel
        (update_cost_log { s with error_line_num := l } .brCond
          (if (ev c s.regfile).2.2 then Cost.BRCOND_TRUE else Cost.BRCOND_FALSE)
          (ev c s.regfile).2.1)
        f nxt
        (c + ((if (ev c s.regfile).2.2 then Cost.BRCOND_TRUE
               else Cost.BRCOND_FALSE) + (ev c s.regfile).2.1)) cs :=
  ⟨rfl, rfl, exec_loop_brCond_some p fuel s f l ev c cs nxt h⟩

/-- Closed instance of C6_brcond_outcome_cost on the self-looping
conditional branch of w_brf, whose condition evaluates to true. -/
theorem C6_brcond_outcome_cost_witness :
    Cost.BRCOND_TRUE = 6 ∧ Cost.BRCOND_FALSE = 1 ∧
    exec_loop w_prog0 1 init_state w_brf w_brc 0 [] =
      exec_loop w_prog0 0
        (update_cost_log { init_state with error_line_num := 8 } .brCond
          Cost.BRCOND_TRUE 0)
        w_brf w_brc (0 + (Cost.BRCOND_TRUE + 0)) [] :=
  C6_brcond_outcome_cost w_prog0 0 init_state w_brf 8
    (fun _ _ => ("x", 0, true)) 0 [] w_brc rfl

/-- Claim C10: every activation creates its cost node and links it into
the call tree before the entry-block check. At the root, a function with
no entry block already fails with its node, of cost 0, reported as the
root node; at a call site, the callee node of cost 0 and with no callees
is already appended as the last entry of the ordered callee list of the
caller when the missing first basic block error aborts the run. -/
theorem C10_node_linked_before_entry_check
    (p1 : Program) (fuel1 : Nat) (s1 : ExtState) (f1 : Func)
    (h1 : f1.get_first_bb = none)
    (p2 : Program) (fuel2 : Nat) (s2 : ExtState) (f2 : Func) (l2 : Nat)
    (g2 : String) (n2 : Nat) (lhs2 : String)
    (setup2 : Rat → RegFile → RegFile → RegFile × Rat) (next2 : Stmt)
    (c2 : Rat) (cs2 : List CostStack) (callee2 : Func)
    (h2 : p2.get_function g2 = some callee2) (hn2 : callee2.nargs = n2)
    (he2 : callee2.get_first_bb = none) :
    exec_function p1 fuel1 s1 f1 =
      .fatal "missing first basic block" s1.error_line_num
        (some ⟨f1.fname, 0, []⟩) s1 ∧
    exec_loop p2 (fuel2 + 1) s2 f2 (.call l2 g2 n2 lhs2 setup2 next2) c2 cs2 =
      .fatal "missing first basic block" l2
        (some ⟨f2.fname,
          c2 + (call_inst_cost callee2 + (call_setup s2 callee2 setup2 c2).2),
          cs2 ++ [⟨callee2.fname, 0, []⟩]⟩)
        (call_entry_state s2 l2 callee2 setup2 c2) := by
  constructor
  · simp only [exec_function, h1]
  · exact exec_loop_call_noentry p2 fuel2 s2 f2 l2 g2 n2 lhs2 setup2 next2 c2
      cs2 callee2 h2 hn2 he2

/-- Closed instance of C10_node_linked_before_entry_check on the
entry-less function e, executed at the root and called from w_mainc. -/
theorem C10_node_linked_before_entry_check_witness :
    exec_function w_proge 1 init_state w_noentry =
      .fatal "missing first basic block" init_state.error_line_num
        (some ⟨w_noentry.fname, 0, []⟩) init_state ∧
    exec_loop w_proge 1 init_state w_mainc w_callnoentry 0 [] =
      .fatal "missing first basic block" 6
        (some ⟨w_mainc.fname,
          0 + (call_inst_cost w_noentry + (call_setup init_state w_noentry w_setup 0).2),
          [] ++ [⟨w_noentry.fname, 0, []⟩]⟩)
        (call_entry_state init_state 6 w_noentry w_setup 0) :=
  C10_node_linked_before_entry_check w_proge 1 init_state w_noentry rfl
    w_proge 0 init_state w_mainc 6 "e" 0 "r0" w_setup w_ret5_stmt 0 [] w_noentry
    rfl rfl rfl

/-- Claim C9 counterexample: the claim that the rendered instruction log
table has one row for every known opcode apart from the duplicated
BrCond row is false at the Assert opcode, which has no row at all. -/
theorem C9_counterexample :
    ¬ (List.countP (fun r => decide (r.1 = Opcode.assert)) inst_log_table =
        if Opcode.assert = Opcode.brCond then 2 else 1) := by
  decide

/-- Claim C9 as amended: the rendered instruction log table has exactly
one row for every known opcode except Assert, which has no row, and
BrCond, which appears as two identical rows (positions 2 and 3 of the
table). -/
theorem C9_inst_log_rows
    : (∀ op : Opcode,
        List.countP (fun r => decide (r.1 = op)) inst_log_table =
          if op = Opcode.brCond then 2 else if op = Opcode.assert then 0 else 1) ∧
      inst_log_table.get ⟨2, by decide⟩ = (Opcode.brCond, "BrCond") ∧
      inst_log_table.get ⟨3, by decide⟩ = (Opcode.brCond, "BrCond") :=
  ⟨by decide, rfl, rfl⟩

/-- Claim C7: a successful call with n arguments charges the caller
accumulator exactly CALL plus n times PER_ARG plus the argument-setup
stall; the charge is already recorded, in the per-opcode cell for Call
and the run-wide wait total respectively, in the state the callee starts
from; the callee runs with the caller node as parent, so its finished
node is appended to the caller callee list; afterwards the saved
register file is restored with the return value written to the call
destination register and execution continues at the statement after the
call, so calls are not terminators. -/
theorem C7_call_success (p : Program) (fuel : Nat) (s : ExtState) (f : Func)
    (l : Nat) (g : String) (n : Nat) (lhs : String)
    (setup : Rat → RegFile → RegFile → RegFile × Rat) (next : Stmt)
    (c : Rat) (cs : List CostStack) (callee : Func) (first : Stmt)
    (r : Nat) (child : CostStack) (s3 : ExtState)
    (h : p.get_function g = some callee) (hn : callee.nargs = n)
    (he : callee.get_first_bb = some first)
    (hc : exec_loop p fuel (call_entry_state s l callee setup c) callee first 0 []
          = .ok r child s3) :
    call_inst_cost callee = Cost.CALL + (n : Rat) * Cost.PER_ARG ∧
    (call_entry_state s l callee setup c).cost_per_inst .call =
      s.cost_per_inst .call + call_inst_cost callee ∧
    (call_entry_state s l callee setup c).total_wait_cost =
      s.total_wait_cost + (call_setup s callee setup c).2 ∧
    exec_loop p (fuel + 1) s f (.call l g n lhs setup next) c cs =
      exec_loop p fuel { s3 with regfile := s.regfile.write_reg lhs r } f next
        (c + (call_inst_cost callee + (call_setup s callee setup c).2) + child.cost)
        (cs ++ [child]) := by
  refine ⟨?_, ?_, ?_, ?_⟩
  · rw [call_inst_cost, hn]
  · simp [call_entry_state, update_cost_log, Function.update]
  · rfl
  · exact exec_loop_call_ok p fuel s f l g n lhs setup next c cs callee first
      r child s3 h hn he hc

/-- Closed instance of C7_call_success: main calls the one-argument
function f, which returns 7 into register r1. -/
theorem C7_call_success_witness :
    call_inst_cost w_f = Cost.CALL + ((1 : Nat) : Rat) * Cost.PER_ARG ∧
    w_c7_sigma2.cost_per_inst .call =
      init_state.cost_per_inst .call + call_inst_cost w_f ∧
    w_c7_sigma2.total_wait_cost =
      init_state.total_wait_cost + (call_setup init_state w_f w_setup 0).2 ∧
    exec_loop w_progc 3 init_state w_mainc w_call_stmt 0 [] =
      exec_loop w_progc 2
        { w_c7_sigma3 with regfile := init_state.regfile.write_reg "r1" 7 }
        w_mainc (.ret 5 (fun _ rf => (rf.regs "r1", 0)))
        (0 + (call_inst_cost w_f + (call_setup init_state w_f w_setup 0).2) +
          w_c7_child.cost)
        ([] ++ [w_c7_child]) :=
  C7_call_success w_progc 2 init_state w_mainc 4 "f" 1 "r1" w_setup
    (.ret 5 (fun _ rf => (rf.regs "r1", 0))) 0 [] w_f w_fret 7 w_c7_child
    w_c7_sigma3 rfl rfl rfl rfl

/-- Claim C2: when a called activation returns, the caller resumes with
a register file that is the pre-call register file with only the call
destination register changed to the returned value: the destination
register holds the return value, every other register keeps its pre-call
value, and the argument-count marker is the pre-call one. -/
theorem C2_call_regfile_frame (p : Program) (fuel : Nat) (s : ExtState) (f : Func)
    (l : Nat) (g : String) (n : Nat) (lhs : String)
    (setup : Rat → RegFile → RegFile → RegFile × Rat) (next : Stmt)
    (c : Rat) (cs : List CostStack) (callee : Func) (first : Stmt)
    (r : Nat) (child : CostStack) (s3 : ExtState)
    (h : p.get_function g = some callee) (hn : callee.nargs = n)
    (he : callee.get_first_bb = some first)
    (hc : exec_loop p fuel (call_entry_state s l callee setup c) callee first 0 []
          = .ok r child s3) :
    exec_loop p (fuel + 1) s f (.call l g n lhs setup next) c cs =
      exec_loop p fuel { s3 with regfile := s.regfile.write_reg lhs r } f next
        (c + (call_inst_cost callee + (call_setup s callee setup c).2) + child.cost)
        (cs ++ [child]) ∧
    (s.regfile.write_reg lhs r).regs lhs = r ∧
    (∀ reg : String, reg ≠ lhs →
      (s.regfile.write_reg lhs r).regs reg = s.regfile.regs reg) ∧
    (s.regfile.write_reg lhs r).nargs = s.regfile.nargs := by
  refine ⟨exec_loop_call_ok p fuel s f l g n lhs setup next c cs callee first
    r child s3 h hn he hc, ?_, ?_, rfl⟩
  · simp [RegFile.write_reg, Function.update]
  · intro reg hne
    simp [RegFile.write_reg, Function.update, hne]

/-- Closed instance of C2_call_regfile_frame: after the call of main to
f, register r1 holds 7, the untouched register r2 keeps its pre-call
value, and the argument-count marker is unchanged. -/
theorem C2_call_regfile_frame_witness :
    exec_loop w_progc 3 init_state w_mainc w_call_stmt 0 [] =
      exec_loop w_progc 2
        { w_c7_sigma3 with regfile := init_state.regfile.write_reg "r1" 7 }
        w_mainc (.ret 5 (fun _ rf => (rf.regs "r1", 0)))
        (0 + (call_inst_cost w_f + (call_setup init_state w_f w_setup 0).2) +
          w_c7_child.cost)
        ([] ++ [w_c7_child]) ∧
    (init_state.regfile.write_reg "r1" 7).regs "r1" = 7 ∧
    (init_state.regfile.write_reg "r1" 7).regs "r2" = init_state.regfile.regs "r2" ∧
    (init_state.regfile.write_reg "r1" 7).nargs = init_state.regfile.nargs := by
  have t := C2_call_regfile_frame w_progc 2 init_state w_mainc 4 "f" 1 "r1"
    w_setup (.ret 5 (fun _ rf => (rf.regs "r1", 0))) 0 [] w_f w_fret 7 w_c7_child
    w_c7_sigma3 rfl rfl rfl rfl
  exact ⟨t.1, t.2.1, t.2.2.1 "r2" (by decide), t.2.2.2⟩

theorem log_cost_total_update (σ : ExtState) (op : Opcode) (b w : Rat) :
    log_cost_total (update_cost_log σ op b w) = log_cost_total σ + (b + w) := by
  cases op <;> simp [update_cost_log, log_cost_total, Function.update] <;> ring

/-- Conservation of cost accounting along the dispatch loop: whenever an
activation runs to completion, the cost its node gained equals the total
gained by the instruction log (per-opcode base cells plus the wait
total), since every dispatched instruction contributes its base and
stall cost once to each side, and at a Return a callee total is folded
exactly once into the parent running total. -/
theorem log_cost_total_eln (σ : ExtState) (l : Nat) :
    log_cost_total { σ with error_line_num := l } = log_cost_total σ := rfl

theorem log_cost_total_eln_regfile (σ : ExtState) (l : Nat) (rf : RegFile) :
    log_cost_total { σ with error_line_num := l, regfile := rf } =
      log_cost_total σ := rfl

theorem log_cost_total_eln_regfile_memory (σ : ExtState) (l : Nat) (rf : RegFile)
    (m : Memory) :
    log_cost_total { σ with error_line_num := l, regfile := rf, memory := m } =
      log_cost_total σ := rfl

theorem log_cost_total_update_eln (σ : ExtState) (l : Nat) (op : Opcode)
    (b w : Rat) :
    log_cost_total (update_cost_log { σ with error_line_num := l } op b w) =
      log_cost_total σ + (b + w) := by
  rw [log_cost_total_update]
  rfl

theorem log_cost_total_update_eln_regfile (σ : ExtState) (l : Nat) (rf : RegFile)
    (op : Opcode) (b w : Rat) :
    log_cost_total
        (update_cost_log { σ with error_line_num := l, regfile := rf } op b w) =
      log_cost_total σ + (b + w) := by
  rw [log_cost_total_update]
  rfl

theorem log_cost_total_update_eln_regfile_memory (σ : ExtState) (l : Nat)
    (rf : RegFile) (m : Memory) (op : Opcode) (b w : Rat) :
    log_cost_total
        (update_cost_log { σ with error_line_num := l, regfile := rf, memory := m }
          op b w) =
      log_cost_total σ + (b + w) := by
  rw [log_cost_total_update]
  rfl

theorem exec_loop_cost_conservation (prog : Program) :
    ∀ fuel σ f curr cost callees r node σ2,
      exec_loop prog fuel σ f curr cost callees = .ok r node σ2 →
      node.cost + log_cost_total σ = cost + log_cost_total σ2 := by
  intro fuel
  induction fuel with
  | zero =>
    intro σ f curr cost callees r node σ2 h
    rw [exec_loop_zero] at h
    exact FnOut.noConfusion h
  | succ fuel ih =>
    intro σ f curr cost callees r node σ2 h
    cases curr with
    | ret line val =>
      rw [exec_loop_ret] at h
      injection h with h1 h2 h3
      subst h2 h3
      rw [log_cost_total_update_eln]
      show cost + (Cost.RET + (val cost σ.regfile).2) + log_cost_total σ = _
      ring
    | brUncond line bb =>
      cases hbb : f.get_bb bb with
      | none =>
        rw [exec_loop_brUncond_none _ _ _ _ _ _ _ _ hbb] at h
        exact FnOut.noConfusion h
      | some nxt =>
        rw [exec_loop_brUncond_some _ _ _ _ _ _ _ _ _ hbb] at h
        have h1 := ih _ _ _ _ _ _ _ _ h
        rw [log_cost_total_update_eln] at h1
        linarith
    | brCond line eval =>
      cases hbb : f.get_bb (eval cost σ.regfile).1 with
      | none =>
        rw [exec_loop_brCond_none _ _ _ _ _ _ _ _ hbb] at h
        exact FnOut.noConfusion h
      | some nxt =>
        rw [exec_loop_brCond_some _ _ _ _ _ _ _ _ _ hbb] at h
        have h1 := ih _ _ _ _ _ _ _ _ h
        rw [log_cost_total_update_eln] at h1
        linarith
    | switch line eval =>
      cases hbb : f.get_bb (eval cost σ.regfile).1 with
      | none =>
        rw [exec_loop_switch_none _ _ _ _ _ _ _ _ hbb] at h
        exact FnOut.noConfusion h
      | some nxt =>
        rw [exec_loop_switch_some _ _ _ _ _ _ _ _ _ hbb] at h
        have h1 := ih _ _ _ _ _ _ _ _ h
        rw [log_cost_total_update_eln] at h1
        linarith
    | call line fname nargs lhs setup next =>
      cases hf : prog.get_function fname with
      | none =>
        rw [exec_loop_call_undef _ _ _ _ _ _ _ _ _ _ _ _ hf] at h
        exact FnOut.noConfusion h
      | some callee =>
        by_cases hn : callee.nargs = nargs
        · cases he : callee.get_first_bb with
          | none =>
            rw [exec_loop_call_noentry _ _ _ _ _ _ _ _ _ _ _ _ _ hf hn he] at h
            exact FnOut.noConfusion h
          | some first =>
            cases hc : exec_loop prog fuel
                (call_entry_state σ line callee setup cost) callee first 0 [] with
            | ok rch child σ3 =>
              rw [exec_loop_call_ok _ _ _ _ _ _ _ _ _ _ _ _ _ _ _ _ _
                hf hn he hc] at h
              have h1 := ih _ _ _ _ _ _ _ _ hc
              have h2 := ih _ _ _ _ _ _ _ _ h
              have h3 : log_cost_total (call_entry_state σ line callee setup cost) =
                  log_cost_total σ +
                    (call_inst_cost callee + (call_setup σ callee setup cost).2) := by
                rw [call_entry_state, log_cost_total_update_eln_regfile]
              have h4 : log_cost_total
                  { σ3 with regfile := σ.regfile.write_reg lhs rch } =
                  log_cost_total σ3 := rfl
              rw [h3] at h1
              rw [h4] at h2
              linarith
            | fatal msg eline child σ3 =>
              rw [exec_loop_call_fatal _ _ _ _ _ _ _ _ _ _ _ _ _ _ _ _ _ _
                hf hn he hc] at h
              exact FnOut.noConfusion h
            | fuelOut child σ3 =>
              rw [exec_loop_call_fuelOut _ _ _ _ _ _ _ _ _ _ _ _ _ _ _ _
                hf hn he hc] at h
              exact FnOut.noConfusion h
        · rw [exec_loop_call_arity _ _ _ _ _ _ _ _ _ _ _ _ _ hf hn] at h
          exact FnOut.noConfusion h
    | other line op ex next =>
      rw [exec_loop_other] at h
      have h1 := ih _ _ _ _ _ _ _ _ h
      rw [log_cost_total_update_eln_regfile_memory] at h1
      linarith

/-- Claim C1: for a program that runs to completion from the zeroed
initial state, the cost of the root node equals the total recorded by
the instruction log, namely the sum over all opcodes of the per-opcode
base-cost cells plus the run-wide wait total; the log receives exactly
one base-plus-stall contribution per executed instruction, so the
reported root cost is the sum of every executed instruction base and
stall cost with nothing double-counted or dropped, the callee total
being folded once into the parent at each Return. -/
theorem C1_root_cost_is_executed_sum (prog : Program) (fuel : Nat) (r : Nat)
    (node : CostStack) (σ2 : ExtState)
    (h : exec_program prog fuel init_state = .ok r node σ2) :
    node.cost = log_cost_total σ2 := by
  have hz : log_cost_total init_state = 0 := by
    norm_num [log_cost_total, init_state]
  cases hm : prog.get_function "main" with
  | none =>
    simp only [exec_program, hm] at h
    exact FnOut.noConfusion h
  | some m =>
    simp only [exec_program, hm] at h
    cases he : m.get_first_bb with
    | none =>
      simp only [exec_function, he] at h
      exact FnOut.noConfusion h
    | some first =>
      simp only [exec_function, he] at h
      have h1 := exec_loop_cost_conservation prog fuel init_state m first 0 [] r
        node σ2 h
      rw [hz] at h1
      linarith

/-- Closed instance of C1_root_cost_is_executed_sum on the two-function
program in which main calls f: the root node cost equals the log total
of the final state. -/
theorem C1_root_cost_is_executed_sum_witness :
    w_c1_node.cost = log_cost_total w_c1_sigma5 :=
  C1_root_cost_is_executed_sum w_progc 3 7 w_c1_node w_c1_sigma5 rfl

theorem log_le_refl (σ : ExtState) : log_le σ σ :=
  ⟨fun _ => le_refl _, fun _ => le_refl _, le_refl _⟩

theorem log_le_trans {σ1 σ2 σ3 : ExtState} (h1 : log_le σ1 σ2)
    (h2 : log_le σ2 σ3) : log_le σ1 σ3 :=
  ⟨fun op => le_trans (h1.1 op) (h2.1 op),
   fun op => le_trans (h1.2.1 op) (h2.2.1 op),
   le_trans (h1.2.2) (h2.2.2)⟩

theorem log_le_same (σ σ2 : ExtState)
    (hcpi : σ2.cost_per_inst = σ.cost_per_inst)
    (hic : σ2.inst_count = σ.inst_count)
    (htw : σ2.total_wait_cost = σ.total_wait_cost) : log_le σ σ2 := by
  refine ⟨fun op => ?_, fun op => ?_, ?_⟩ <;> simp [hcpi, hic, htw]

theorem log_le_update (σ σ2 : ExtState) (op : Opcode) (b w : Rat)
    (hcpi : σ2.cost_per_inst = σ.cost_per_inst)
    (hic : σ2.inst_count = σ.inst_count)
    (htw : σ2.total_wait_cost = σ.total_wait_cost)
    (hb : 0 ≤ b) (hw : 0 ≤ w) : log_le σ (update_cost_log σ2 op b w) := by
  refine ⟨fun op2 => ?_, fun op2 => ?_, ?_⟩
  · simp only [update_cost_log, hic]
    by_cases hop : op2 = op
    · subst hop
      rw [Function.update_same]
      exact Nat.le_succ _
    · rw [Function.update_noteq hop]
  · simp only [update_cost_log, hcpi]
    by_cases hop : op2 = op
    · subst hop
      rw [Function.update_same]
      exact le_add_of_nonneg_right hb
    · rw [Function.update_noteq hop]
  · simp only [update_cost_log, htw]
    exact le_add_of_nonneg_right hw

/-- Monotonicity of the instruction log along the dispatch loop: when
every cost component the program statements can report is nonnegative,
the per-opcode count and cost cells and the run-wide wait total never
decrease, whatever the outcome; the log is purely additive and never
reset. -/
theorem exec_loop_log_monotone (prog : Program) (hp : prog.nonneg_costs) :
    ∀ fuel σ f curr cost callees, f.nonneg_costs → curr.nonneg_costs →
      log_le σ (exec_loop prog fuel σ f curr cost callees).state := by
  intro fuel
  induction fuel with
  | zero =>
    intro σ f curr cost callees hf hcurr
    rw [exec_loop_zero]
    exact log_le_refl σ
  | succ fuel ih =>
    intro σ f curr cost callees hf hcurr
    cases curr with
    | ret line val =>
      rw [exec_loop_ret]
      exact log_le_update σ _ _ _ _ rfl rfl rfl (by norm_num [Cost.RET])
        (hcurr cost σ.regfile)
    | brUncond line bb =>
      cases hbb : f.get_bb bb with
      | none =>
        rw [exec_loop_brUncond_none _ _ _ _ _ _ _ _ hbb]
        exact log_le_same _ _ rfl rfl rfl
      | some nxt =>
        rw [exec_loop_brUncond_some _ _ _ _ _ _ _ _ _ hbb]
        have h1 : log_le σ
            (update_cost_log { σ with error_line_num := line } .brUncond
              Cost.BRUNCOND 0) :=
          log_le_update σ _ _ _ _ rfl rfl rfl (by norm_num [Cost.BRUNCOND])
            (le_refl 0)
        exact log_le_trans h1 (ih _ _ _ _ _ hf (hf.2 _ _ hbb))
    | brCond line eval =>
      cases hbb : f.get_bb (eval cost σ.regfile).1 with
      | none =>
        rw [exec_loop_brCond_none _ _ _ _ _ _ _ _ hbb]
        exact log_le_same _ _ rfl rfl rfl
      | some nxt =>
        rw [exec_loop_brCond_some _ _ _ _ _ _ _ _ _ hbb]
        have h1 : log_le σ
            (update_cost_log { σ with error_line_num := line } .brCond
              (if (eval cost σ.regfile).2.2 then Cost.BRCOND_TRUE
               else Cost.BRCOND_FALSE) (eval cost σ.regfile).2.1) :=
          log_le_update σ _ _ _ _ rfl rfl rfl
            (by cases hbe : (eval cost σ.regfile).2.2 <;>
              simp [hbe, Cost.BRCOND_TRUE, Cost.BRCOND_FALSE])
            (hcurr cost σ.regfile)
        exact log_le_trans h1 (ih _ _ _ _ _ hf (hf.2 _ _ hbb))
    | switch line eval =>
      cases hbb : f.get_bb (eval cost σ.regfile).1 with
      | none =>
        rw [exec_loop_switch_none _ _ _ _ _ _ _ _ hbb]
        exact log_le_same _ _ rfl rfl rfl
      | some nxt =>
        rw [exec_loop_switch_some _ _ _ _ _ _ _ _ _ hbb]
        have h1 : log_le σ
            (update_cost_log { σ with error_line_num := line } .switch
              Cost.SWITCH (eval cost σ.regfile).2) :=
          log_le_update σ _ _ _ _ rfl rfl rfl (by norm_num [Cost.SWITCH])
            (hcurr cost σ.regfile)
        exact log_le_trans h1 (ih _ _ _ _ _ hf (hf.2 _ _ hbb))
    | call line g n lhs setup next =>
      cases hg : prog.get_function g with
      | none =>
        rw [exec_loop_call_undef _ _ _ _ _ _ _ _ _ _ _ _ hg]
        exact log_le_same _ _ rfl rfl rfl
      | some callee =>
        have hic : (0 : Rat) ≤ call_inst_cost callee := by
          have : (0 : Rat) ≤ (callee.nargs : Rat) := Nat.cast_nonneg _
          norm_num [call_inst_cost, Cost.CALL, Cost.PER_ARG]
          linarith
        by_cases hn : callee.nargs = n
        · cases he : callee.get_first_bb with
          | none =>
            rw [exec_loop_call_noentry _ _ _ _ _ _ _ _ _ _ _ _ _ hg hn he]
            show log_le σ (call_entry_state σ line callee setup cost)
            exact log_le_update σ _ _ _ _ rfl rfl rfl hic
              (hcurr.1 cost σ.regfile _)
          | some first =>
            have hstep : log_le σ (call_entry_state σ line callee setup cost) :=
              log_le_update σ _ _ _ _ rfl rfl rfl hic (hcurr.1 cost σ.regfile _)
            have hchild := ih (call_entry_state σ line callee setup cost) callee
              first 0 [] (hp _ _ hg) ((hp _ _ hg).1 _ he)
            cases hc : exec_loop prog fuel
                (call_entry_state σ line callee setup cost) callee first 0 [] with
            | ok rch child σ3 =>
              rw [exec_loop_call_ok _ _ _ _ _ _ _ _ _ _ _ _ _ _ _ _ _
                hg hn he hc]
              rw [hc] at hchild
              have h4 : log_le σ3 { σ3 with regfile := σ.regfile.write_reg lhs rch } :=
                log_le_same _ _ rfl rfl rfl
              exact log_le_trans (log_le_trans hstep hchild)
                (log_le_trans h4 (ih _ _ _ _ _ hf hcurr.2))
            | fatal msg eline child σ3 =>
              rw [exec_loop_call_fatal _ _ _ _ _ _ _ _ _ _ _ _ _ _ _ _ _ _
                hg hn he hc]
              rw [hc] at hchild
              exact log_le_trans hstep hchild
            | fuelOut child σ3 =>
              rw [exec_loop_call_fuelOut _ _ _ _ _ _ _ _ _ _ _ _ _ _ _ _
                hg hn he hc]
              rw [hc] at hchild
              exact log_le_trans hstep hchild
        · rw [exec_loop_call_arity _ _ _ _ _ _ _ _ _ _ _ _ _ hg hn]
          exact log_le_same _ _ rfl rfl rfl
    | other line op ex next =>
      rw [exec_loop_other]
      have h1 : log_le σ
          (update_cost_log
            { σ with
              error_line_num := line
              regfile := (ex cost σ.regfile σ.memory).2.2.1
              memory := (ex cost σ.regfile σ.memory).2.2.2 }
            op (ex cost σ.regfile σ.memory).1 (ex cost σ.regfile σ.memory).2.1) :=
        log_le_update σ _ _ _ _ rfl rfl rfl
          ((hcurr.1 cost σ.regfile σ.memory).1)
          ((hcurr.1 cost σ.regfile σ.memory).2)
      exact log_le_trans h1 (ih _ _ _ _ _ hf hcurr.2)

theorem w_ret5_nonneg : Stmt.nonneg_costs w_ret5_stmt := by
  intro c rf
  exact le_refl 0

theorem w_main0_nonneg : Func.nonneg_costs w_main0 := by
  constructor
  · intro s hs
    simp only [w_main0, Func.get_first_bb, Option.some.injEq] at hs
    subst hs
    exact w_ret5_nonneg
  · intro l s hs
    simp [w_main0, Func.get_bb] at hs

theorem w_prog0_nonneg : Program.nonneg_costs w_prog0 := by
  intro n f h
  cases hbe : n == "main" with
  | false => simp [Program.get_function, w_prog0, List.lookup, hbe] at h
  | true =>
    simp [Program.get_function, w_prog0, List.lookup, hbe] at h
    subst h
    exact w_main0_nonneg

/-- Claim C8: State::update_cost_log performs exactly one update per
executed instruction: it increments the invocation count of the given
opcode by one, adds only the base cost to the per-opcode cost cell of
that opcode, leaves every other count and cost cell untouched, and adds
the stall cost to the single run-wide wait total rather than to any
per-opcode cell. Consequently, whenever every cost the program
statements can report is nonnegative, all count and cost cells and the
wait total are monotonically non-decreasing along any execution, however
it ends, and are never reset. -/
theorem C8_inst_log_update_discipline (σ0 : ExtState) (op : Opcode) (b w : Rat)
    (prog : Program) (fuel : Nat) (σ : ExtState) (f : Func) (curr : Stmt)
    (cost : Rat) (callees : List CostStack)
    (hp : prog.nonneg_costs) (hf : f.nonneg_costs) (hcurr : curr.nonneg_costs) :
    (update_cost_log σ0 op b w).inst_count op = σ0.inst_count op + 1 ∧
    (update_cost_log σ0 op b w).cost_per_inst op = σ0.cost_per_inst op + b ∧
    (∀ op2, op2 ≠ op →
      (update_cost_log σ0 op b w).inst_count op2 = σ0.inst_count op2 ∧
      (update_cost_log σ0 op b w).cost_per_inst op2 = σ0.cost_per_inst op2) ∧
    (update_cost_log σ0 op b w).total_wait_cost = σ0.total_wait_cost + w ∧
    log_le σ (exec_loop prog fuel σ f curr cost callees).state := by
  refine ⟨?_, ?_, ?_, rfl,
    exec_loop_log_monotone prog hp fuel σ f curr cost callees hf hcurr⟩
  · simp [update_cost_log, Function.update_same]
  · simp [update_cost_log, Function.update_same]
  · intro op2 hop
    constructor <;> simp [update_cost_log, Function.update_noteq hop]

/-- Closed instance of C8_inst_log_update_discipline: one Ret update on
the zeroed log, with the Call cells checked unchanged, and monotonicity
of the log along the one-return program w_prog0. -/
theorem C8_inst_log_update_discipline_witness :
    (update_cost_log init_state .ret 1 0).inst_count .ret =
      init_state.inst_count .ret + 1 ∧
    (update_cost_log init_state .ret 1 0).cost_per_inst .ret =
      init_state.cost_per_inst .ret + 1 ∧
    ((update_cost_log init_state .ret 1 0).inst_count .call =
      init_state.inst_count .call ∧
     (update_cost_log init_state .ret 1 0).cost_per_inst .call =
      init_state.cost_per_inst .call) ∧
    (update_cost_log init_state .ret 1 0).total_wait_cost =
      init_state.total_wait_cost + 0 ∧
    log_le init_state
      (exec_loop w_prog0 1 init_state w_main0 w_ret5_stmt 0 []).state := by
  have t := C8_inst_log_update_discipline init_state .ret 1 0 w_prog0 1
    init_state w_main0 w_ret5_stmt 0 [] w_prog0_nonneg w_main0_nonneg
    w_ret5_nonneg
  exact ⟨t.1, t.2.1, t.2.2.1 .call (by decide), t.2.2.2.1, t.2.2.2.2⟩
